import Mathlib

/-!
Verification of the akaidoo source-shrinking engine.

This file gives a shallow embedding of the Python modules
`akaidoo/shrinker.py` and `akaidoo/utils.py` and proves or refutes the
specification claims about them.

The engine operates on tree-sitter concrete syntax trees.  We model a
tree-sitter node as an inductive `Node` carrying its type string, byte
range, row range, the named-field children (what `child_by_field_name`
returns) and the ordered list of all children (what `.children` and
`.child(i)` return).  Source bytes are modelled as a `List Char`
(the sources handled by the tool are ASCII, so byte offsets coincide
with character offsets, and UTF-8 decoding is the identity).

Python stdlib primitives used by the code (`str.strip`, `str.splitlines`,
`"sep".join`, `re.sub` with the three concrete patterns appearing in the
source, `str.replace`) are given executable Lean counterparts below,
faithful to their behaviour on the inputs the engine feeds them.
-/

namespace Akaidoo

open scoped List

set_option maxRecDepth 100000

/-- A tree-sitter syntax node: node type, byte range, row range
(`start_point`/`end_point` rows), the field-name map backing
`child_by_field_name`, and the ordered `children` list. -/
inductive Node where
  | mk (ty : String) (startByte endByte : Nat) (startRow endRow : Nat)
       (fieldChildren : List (String × Node)) (children : List Node)

def Node.ty : Node → String
  | .mk t _ _ _ _ _ _ => t

def Node.startByte : Node → Nat
  | .mk _ s _ _ _ _ _ => s

def Node.endByte : Node → Nat
  | .mk _ _ e _ _ _ _ => e

def Node.startRow : Node → Nat
  | .mk _ _ _ r _ _ _ => r

def Node.endRow : Node → Nat
  | .mk _ _ _ _ r _ _ => r

def Node.fieldChildren : Node → List (String × Node)
  | .mk _ _ _ _ _ f _ => f

def Node.children : Node → List Node
  | .mk _ _ _ _ _ _ c => c

/-- `node.child_by_field_name(name)` in the tree-sitter API. -/
def Node.childByFieldName (n : Node) (name : String) : Option Node :=
  (n.fieldChildren.find? (fun p => p.1 = name)).map (·.2)

/-- `node.child(i)` in the tree-sitter API. -/
def Node.child (n : Node) (i : Nat) : Option Node :=
  n.children.get? i

/-- `code_bytes[s:e].decode("utf-8")` — slicing the source bytes. -/
def sliceText (code : List Char) (s e : Nat) : String :=
  String.mk ((code.drop s).take (e - s))

/-- Whitespace characters recognised by Python `str.strip()` / `\s`. -/
def isPySpace (c : Char) : Bool :=
  c = ' ' || c = '\t' || c = '\n' || c = '\r' || c = '\x0b' || c = '\x0c'

/-- Python `str.strip()`. -/
def pyStrip (s : String) : String :=
  String.mk (((s.data.dropWhile isPySpace).reverse.dropWhile isPySpace).reverse)

/-- Python `str.strip("'\"")` — used to unquote string literals. -/
def stripQuotes (s : String) : String :=
  let isQ : Char → Bool := fun c => c = '\'' || c = '"'
  String.mk (((s.data.dropWhile isQ).reverse.dropWhile isQ).reverse)

/-- Python `str.startswith(p)`. -/
def pyStartsWith (s p : String) : Bool :=
  List.isPrefixOf p.data s.data

/-- Split a character list at every newline. -/
def splitOnNl : List Char → List (List Char)
  | [] => [[]]
  | c :: rest =>
    if c = '\n' then [] :: splitOnNl rest
    else
      match splitOnNl rest with
      | [] => [[c]]
      | l :: ls => (c :: l) :: ls

/-- `s.split("\n")`. -/
def pySplitOnNl (s : String) : List String :=
  (splitOnNl s.data).map String.mk

/-- Python `str.splitlines()` on `\n`-separated text (the engine only
feeds it text already stripped of trailing newlines). -/
def pySplitlines (s : String) : List String :=
  if s = "" then [] else pySplitOnNl s

/-- Python `sep.join(parts)`. -/
def pyJoin (sep : String) : List String → String
  | [] => ""
  | [s] => s
  | s :: rest => s ++ sep ++ pyJoin sep rest

/-- Match a literal character sequence at the head of the input,
returning the remainder. -/
def afterLit : List Char → List Char → Option (List Char)
  | [], cs => some cs
  | _ :: _, [] => none
  | p :: ps, c :: cs => if c = p then afterLit ps cs else none

/-- Global leftmost non-overlapping substitution, the semantics of Python
`re.sub` (and of `str.replace`): at each position try a match; on success
emit the replacement and resume after the consumed text, otherwise keep
one character and advance.  All matchers used below consume at least one
character, so the guard is always satisfied on a successful match. -/
def subAllRAux (f : List Char → Option (List Char × List Char)) :
    Nat → List Char → List Char
  | 0, l => l
  | _ + 1, [] => []
  | fuel + 1, c :: rest =>
    match f (c :: rest) with
    | some (rep, rem) =>
      if rem.length < rest.length + 1 then
        rep ++ subAllRAux f fuel rem
      else
        c :: subAllRAux f fuel rest
    | none => c :: subAllRAux f fuel rest

/-- `subAllRAux` with enough fuel to never run out. -/
def subAllR (f : List Char → Option (List Char × List Char))
    (l : List Char) : List Char :=
  subAllRAux f l.length l

/-- Python `str.replace(old, new)`: left-to-right non-overlapping
replacement of every occurrence (`old` is never empty here). -/
def pyReplace (s old new : String) : String :=
  String.mk
    (subAllR (fun cs => (afterLit old.data cs).map (fun rest => (new.data, rest)))
      s.data)

/-- Matcher for the pattern `,?\s*KEY\s*=\s*(?P<q>['\"])(?:(?!\1).)*\1`
at the head of the input (`KEY` is `help` or `string` in the source).
The pattern is deterministic: `,?` can only help (a leading `,` is not
whitespace and not the start of `KEY`), and each `\s*`/content run is
followed by a character it cannot consume. -/
def matchKwArgString (key : List Char) (cs : List Char) : Option (List Char × List Char) := do
  let cs0 := if cs.head? = some ',' then cs.tail else cs
  let cs1 := cs0.dropWhile isPySpace
  let cs2 ← afterLit key cs1
  let cs3 := cs2.dropWhile isPySpace
  let cs4 ← afterLit ['='] cs3
  let cs5 := cs4.dropWhile isPySpace
  match cs5 with
  | q :: r =>
    if q = '\'' || q = '"' then
      let content := r.takeWhile (fun c => c ≠ q && c ≠ '\n')
      match r.drop content.length with
      | c :: r2 => if c = q then some ([], r2) else none
      | [] => none
    else none
  | [] => none

/-- Matcher for the pattern `,\s*\)` with replacement `)`. -/
def matchCommaParen (cs : List Char) : Option (List Char × List Char) :=
  match cs with
  | ',' :: r =>
    match (r.dropWhile isPySpace) with
    | ')' :: r2 => some ([')'], r2)
    | _ => none
  | _ => none

/-- Python `re.sub(r"#.*$", "", s)` without `re.MULTILINE`: `$` matches
only at the end of the string or just before a final newline, and `.`
cannot cross a newline, so the (single possible) match truncates the
last line at its first `#`. -/
def stripTrailingComment (s : String) : String :=
  let cs := s.data
  let hasNl := cs.getLast? = some '\n'
  let body := if hasNl then cs.dropLast else cs
  let lns := pySplitOnNl (String.mk body)
  let lastLine := (lns.getLast?).getD ""
  let cut := String.mk (lastLine.data.takeWhile (· ≠ '#'))
  pyJoin "\n" (lns.dropLast ++ [cut]) ++ (if hasNl then "\n" else "")

/-- `re.sub(r",?\s*help\s*=\s*(?P<q>['\"])(?:(?!\1).)*\1", "", line)`. -/
def stripHelpKwArg (line : String) : String :=
  String.mk (subAllR (matchKwArgString "help".data) line.data)

/-- `re.sub(r",?\s*string\s*=\s*(?P<q>['\"])(?:(?!\1).)*\1", "", line)`. -/
def stripStringKwArg (line : String) : String :=
  String.mk (subAllR (matchKwArgString "string".data) line.data)

/-- `re.sub(r",\s*\)", ")", line)`. -/
def fixCommaParen (line : String) : String :=
  String.mk (subAllR matchCommaParen line.data)

/-- The `clean_line` closure of `shrink_python_file` (shrinker.py:189-196):
identity unless `strip_metadata` is set, otherwise strips `help=` keyword
arguments, comma artifacts, trailing comments and surrounding whitespace. -/
def cleanLine (stripMetadata : Bool) (line : String) : String :=
  if !stripMetadata then line
  else
    let line := stripHelpKwArg line
    let line := pyReplace (pyReplace line ", ," ",") ",, " ", "
    let line := fixCommaParen line
    let line := stripTrailingComment line
    pyStrip line

/-- `_strip_field_metadata` (shrinker.py:408-414). -/
def stripFieldMetadata (line : String) : String :=
  let line := stripHelpKwArg line
  let line := stripStringKwArg line
  let line := pyReplace (pyReplace line ", ," ",") ",, " ", "
  let line := fixCommaParen line
  let line := stripTrailingComment line
  pyStrip line

/-- Result record of `_get_field_info` (shrinker.py:43-50). -/
structure FieldInfo where
  name : Option String := none
  fieldType : Option String := none
  comodel : Option String := none
  compute : Option String := none
  store : Option Bool := none
  isField : Bool := false
deriving DecidableEq

/-- Positional-argument scan of `_get_field_info` (shrinker.py:92-104):
the first `string` argument child yields the comodel, but an
`identifier`/`attribute`/`call`/`integer`/`float` argument seen first
aborts the scan (computed or variable comodel). -/
def findPositionalComodel (code : List Char) : List Node → Option String
  | [] => none
  | a :: rest =>
    if a.ty = "string" then
      some (stripQuotes (sliceText code a.startByte a.endByte))
    else if a.ty = "identifier" || a.ty = "attribute" || a.ty = "call" ||
        a.ty = "integer" || a.ty = "float" then
      none
    else
      findPositionalComodel code rest

/-- Keyword-argument scan of `_get_field_info` (shrinker.py:106-129),
folded over the argument children in order. -/
def applyKeywordArg (code : List Char) (info : FieldInfo) (arg : Node) : FieldInfo :=
  if arg.ty = "keyword_argument" then
    match arg.childByFieldName "name", arg.childByFieldName "value" with
    | some keyN, some valN =>
      let key := sliceText code keyN.startByte keyN.endByte
      if key = "compute" then
        if valN.ty = "string" then
          { info with compute := some (stripQuotes (sliceText code valN.startByte valN.endByte)) }
        else info
      else if key = "store" then
        if valN.ty = "true" then { info with store := some true }
        else if valN.ty = "false" then { info with store := some false }
        else info
      else if key = "comodel_name" && valN.ty = "string" then
        { info with comodel := some (stripQuotes (sliceText code valN.startByte valN.endByte)) }
      else info
    | _, _ => info
  else info

/-- Argument handling of `_get_field_info` (shrinker.py:89-129): the
positional comodel scan for the three relational factories, then the
keyword-argument fold. -/
def getFieldInfoArgs (code : List Char) (info : FieldInfo) (attrName : String)
    (args : Node) : FieldInfo :=
  let info :=
    if attrName = "Many2one" || attrName = "One2many" || attrName = "Many2many" then
      match findPositionalComodel code args.children with
      | some cm => { info with comodel := some cm }
      | none => info
    else info
  args.children.foldl (applyKeywordArg code) info

/-- `_get_field_info` (shrinker.py:39-131); each Python early `return`
becomes the corresponding partially-filled record. -/
def getFieldInfo (node : Node) (code : List Char) : FieldInfo :=
  if node.ty ≠ "expression_statement" then {} else
  match node.child 0 with
  | none => {}
  | some assign =>
    if assign.ty ≠ "assignment" then {} else
    match assign.childByFieldName "left" with
    | none => {}
    | some left =>
      if left.ty ≠ "identifier" then {} else
      let lname := sliceText code left.startByte left.endByte
      let info1 : FieldInfo := { name := some lname }
      if pyStartsWith lname "_" then info1 else
      match assign.childByFieldName "right" with
      | none => info1
      | some right =>
        if right.ty ≠ "call" then info1 else
        match right.childByFieldName "function" with
        | none => info1
        | some func =>
          if func.ty ≠ "attribute" then info1 else
          match func.childByFieldName "object", func.childByFieldName "attribute" with
          | some obj, some attr =>
            if obj.ty ≠ "identifier" || attr.ty ≠ "identifier" then info1 else
            let objName := sliceText code obj.startByte obj.endByte
            let attrName := sliceText code attr.startByte attr.endByte
            if objName ≠ "fields" && objName ≠ "models" then info1 else
            let info2 := { info1 with isField := true, fieldType := some attrName }
            match right.childByFieldName "arguments" with
            | none => info2
            | some args => getFieldInfoArgs code info2 attrName args
          | _, _ => info1

/-- Per-child body of the loop in `_get_odoo_model_name_from_body`
(utils.py:71-96): the extracted value when this class-body child is a
single-target assignment of a string literal to `_name` or `_inherit`
(both branches of the Python `if`/`elif` extract identically). -/
def markerStringValue (code : List Char) (child : Node) : Option String := do
  guard (child.ty = "expression_statement")
  let assign ← child.child 0
  guard (assign.ty = "assignment")
  let left ← assign.childByFieldName "left"
  guard (left.ty = "identifier")
  let lname := sliceText code left.startByte left.endByte
  guard (lname = "_name" || lname = "_inherit")
  let right ← assign.childByFieldName "right"
  guard (right.ty = "string")
  return stripQuotes (sliceText code right.startByte right.endByte)

/-- `_get_odoo_model_name_from_body` (utils.py:67-97): return on the first
class-body child from which a marker value is extracted. -/
def getOdooModelNameFromBody (body : Node) (code : List Char) : Option String :=
  body.children.findSome? (markerStringValue code)

/-- Modelled from the spec: per-child declared names for
`_get_odoo_model_names_from_body`, which the shrinker imports from
`utils` but which is absent from the sources under `src/`.  Per the spec
(§3, §4.1), a `_name` string value is a declared name, a `_inherit`
string value is a declared name, and when `_inherit` is assigned a list,
every string element of the list is a declared name. -/
def markerNames (code : List Char) (child : Node) : Finset String :=
  if child.ty ≠ "expression_statement" then ∅ else
  match child.child 0 with
  | none => ∅
  | some assign =>
    if assign.ty ≠ "assignment" then ∅ else
    match assign.childByFieldName "left", assign.childByFieldName "right" with
    | some left, some right =>
      if left.ty = "identifier" then
        let lname := sliceText code left.startByte left.endByte
        if lname = "_name" && right.ty = "string" then
          {stripQuotes (sliceText code right.startByte right.endByte)}
        else if lname = "_inherit" && right.ty = "string" then
          {stripQuotes (sliceText code right.startByte right.endByte)}
        else if lname = "_inherit" && right.ty = "list" then
          (right.children.filterMap (fun e =>
            if e.ty = "string" then
              some (stripQuotes (sliceText code e.startByte e.endByte))
            else none)).toFinset
        else ∅
      else ∅
    | _, _ => ∅

/-- Modelled from the spec: `_get_odoo_model_names_from_body` — the set of
all entity names a class declares (see `markerNames`). -/
def getOdooModelNamesFromBody (body : Node) (code : List Char) : Finset String :=
  body.children.foldl (fun acc child => acc ∪ markerNames code child) ∅

/-- One value of the stats dictionary built by `get_odoo_model_stats`
(utils.py:30): the keys `fields`, `methods`, `score`. -/
structure ModelInfo where
  fields : Nat
  methods : Nat
  score : Nat
deriving DecidableEq

/-- `stats.get(k, default)` on the association-list model of the Python
dict. -/
def lookupStats (stats : List (String × ModelInfo)) (k : String) : Option ModelInfo :=
  (stats.find? (fun p => p.1 = k)).map (·.2)

/-- `stats[k] = v` on the association-list model of the Python dict. -/
def setStats : List (String × ModelInfo) → String → ModelInfo → List (String × ModelInfo)
  | [], k, v => [(k, v)]
  | (k', v') :: rest, k, v =>
    if k' = k then (k, v) :: rest else (k', v') :: setStats rest k v

/-- The field-counting condition of `get_odoo_model_stats`
(utils.py:36-44): an expression-statement whose first child is an
assignment to a plain identifier not starting with an underscore.  The
right-hand side is not inspected. -/
def statsFieldLike (code : List Char) (child : Node) : Bool :=
  child.ty = "expression_statement" &&
    (match child.child 0 with
     | some assign =>
       assign.ty = "assignment" &&
         (match assign.childByFieldName "left" with
          | some left =>
            left.ty = "identifier" &&
              !pyStartsWith (sliceText code left.startByte left.endByte) "_"
          | none => false)
     | none => false)

/-- The `fields_count` accumulation loop of `get_odoo_model_stats`
(utils.py:35-44). -/
def classFieldsCount (body : Node) (code : List Char) : Nat :=
  body.children.countP (fun child => statsFieldLike code child)

/-- The `methods_count` accumulation loop of `get_odoo_model_stats`
(utils.py:45-46). -/
def classMethodsCount (body : Node) : Nat :=
  body.children.countP (fun c =>
    c.ty = "function_definition" || c.ty = "decorated_definition")

/-- The per-class-node update of the stats dictionary in
`get_odoo_model_stats` (utils.py:25-59). -/
def classStatsUpdate (code : List Char) (stats : List (String × ModelInfo))
    (node : Node) : List (String × ModelInfo) :=
  if node.ty = "class_definition" then
    match node.childByFieldName "body" with
    | some body =>
      match getOdooModelNameFromBody body code with
      | some mname =>
        let fieldsCount := classFieldsCount body code
        let methodsCount := classMethodsCount body
        let linesCount : Nat := (max 0 ((node.endRow : Int) - node.startRow + 1)).toNat
        let score := fieldsCount * 1 + methodsCount * 3 + (linesCount / 10) * 2
        let prev := (lookupStats stats mname).getD ⟨0, 0, 0⟩
        setStats stats mname
          ⟨prev.fields + fieldsCount, prev.methods + methodsCount, prev.score + score⟩
      | none => stats
    | none => stats
  else stats

mutual

/-- The recursive `scan_node` of `get_odoo_model_stats` (utils.py:24-62):
update the stats at this node, then recurse into every child. -/
def scanNodeStats (code : List Char) : Node → List (String × ModelInfo) →
    List (String × ModelInfo)
  | .mk t sb eb sr er fc cs, stats =>
    scanChildrenStats code cs (classStatsUpdate code stats (.mk t sb eb sr er fc cs))

/-- The `for child in node.children: scan_node(child)` recursion of
`get_odoo_model_stats`. -/
def scanChildrenStats (code : List Char) : List Node → List (String × ModelInfo) →
    List (String × ModelInfo)
  | [], stats => stats
  | c :: rest, stats => scanChildrenStats code rest (scanNodeStats code c stats)

end

/-- `get_odoo_model_stats` (utils.py:12-65), taking the already-parsed
root node together with the source bytes. -/
def getOdooModelStats (root : Node) (code : List Char) : List (String × ModelInfo) :=
  scanNodeStats code root []

/-- The parameters of `shrink_python_file` (shrinker.py:134-144) other
than the input file.  Python sets are modelled as `Finset String`;
`header_path` keeps its `Optional[str]` shape. -/
structure ShrinkCfg where
  shrinkLevel : String
  expandModels : Finset String
  skipImports : Bool
  stripMetadata : Bool
  relevantModels : Finset String
  pruneMethods : Finset String
  headerPath : Option String

/-- The `shrink_level` default resolution (shrinker.py:149-150). -/
def resolveShrinkLevel (aggressive : Bool) (lvl : Option String) : String :=
  lvl.getD (if aggressive then "hard" else "soft")

/-- The `func_def_node` resolution of `process_function`
(shrinker.py:203-209). -/
def resolveFuncDef (node : Node) : Option Node :=
  if node.ty = "decorated_definition" then
    match node.childByFieldName "definition" with
    | some d => if d.ty = "function_definition" then some d else none
    | none => none
  else some node

/-- `should_prune_specifically` (shrinker.py:211-221). -/
def shouldPruneFn (pruneMethods : Finset String) (code : List Char)
    (funcDefNode : Node) (contextModels : Finset String) : Bool :=
  match funcDefNode.childByFieldName "name" with
  | some fnNode =>
    let fname := sliceText code fnNode.startByte fnNode.endByte
    decide (∃ m ∈ contextModels, (s!"{m}.{fname}") ∈ pruneMethods)
  | none => false

/-- The body of the `process_function` closure (shrinker.py:198-250)
after the effective-level resolution, returning the list of parts it
appends. -/
def processFunctionCore (pruneMethods : Finset String) (code : List Char)
    (node : Node) (indentStr : String) (contextModels : Finset String)
    (effectiveLevel : String) : List String :=
  match resolveFuncDef node with
  | none => []
  | some funcDefNode =>
    let shouldPrune : Bool := shouldPruneFn pruneMethods code funcDefNode contextModels
    if (effectiveLevel = "hard" || effectiveLevel = "extreme") && !shouldPrune then
      []
    else
      match funcDefNode.childByFieldName "body" with
      | none => []
      | some bodyNode =>
        let headerText := pyStrip (sliceText code node.startByte bodyNode.startByte)
        let headerParts := (pySplitlines headerText).filterMap (fun l =>
          let sl := pyStrip l
          if sl ≠ "" then some (indentStr ++ sl) else none)
        if shouldPrune then
          headerParts ++ [indentStr ++ "    pass  # pruned by request"]
        else if effectiveLevel = "soft" then
          headerParts ++ [indentStr ++ "    pass  # shrunk"]
        else
          [sliceText code node.startByte node.endByte]

/-- `process_function` (shrinker.py:198-250): resolve the effective level
(shrinker.py:201) and run the body. -/
def processFunction (cfg : ShrinkCfg) (code : List Char) (node : Node)
    (indentStr : String) (contextModels : Finset String)
    (overrideLevel : Option String) : List String :=
  processFunctionCore cfg.pruneMethods code node indentStr contextModels
    (overrideLevel.getD cfg.shrinkLevel)

/-- The parts appended for one class-body child in the non-expanded class
branch of `shrink_python_file` (shrinker.py:331-372).  The two summary
buckets are accumulated separately (see `classBucketsStep`); they do not
influence which parts a child emits. -/
def classChildParts (cfg : ShrinkCfg) (code : List Char) (effectiveLevel : String)
    (modelNames : Finset String) (child : Node) : List String :=
  if child.ty = "expression_statement" then
    match child.child 0 with
    | some expr =>
      if expr.ty = "assignment" then
        let lineText := pyStrip (sliceText code child.startByte child.endByte)
        if effectiveLevel = "none" then
          ["    " ++ lineText]
        else
          let fInfo := getFieldInfo child code
          if fInfo.isField && effectiveLevel = "extreme" then
            let comodelRelevant : Bool :=
              match fInfo.comodel with
              | some cm => decide (cm ∈ cfg.relevantModels)
              | none => false
            if comodelRelevant then
              ["    " ++ stripFieldMetadata lineText]
            else []
          else
            ["    " ++ cleanLine cfg.stripMetadata lineText]
      else []
    | none => []
  else if child.ty = "function_definition" || child.ty = "decorated_definition" then
    processFunction cfg code child "    " modelNames (some effectiveLevel)
  else []

/-- The `non_computed_fields` / `computed_fields` bucket contribution of
one class-body child (shrinker.py:328-349).  Python truthiness of
`f_info["compute"]` treats the empty string like `None`. -/
def bucketLabels (code : List Char) (effectiveLevel : String)
    (child : Node) : List String × List String :=
  if child.ty = "expression_statement" then
    match child.child 0 with
    | some expr =>
      if expr.ty = "assignment" && effectiveLevel ≠ "none" then
        let fInfo := getFieldInfo child code
        if fInfo.isField && effectiveLevel = "extreme" then
          let nm := fInfo.name.getD ""
          match fInfo.compute with
          | some cp =>
            if cp ≠ "" then ([], [s!"{nm} ({cp})"])
            else ([nm], [])
          | none => ([nm], [])
        else ([], [])
      else ([], [])
    | none => ([], [])
  else ([], [])

/-- All parts emitted by the class-body loop (shrinker.py:331-372). -/
def classBodyParts (cfg : ShrinkCfg) (code : List Char) (effectiveLevel : String)
    (modelNames : Finset String) (children : List Node) : List String :=
  (children.map (classChildParts cfg code effectiveLevel modelNames)).flatten

/-- The two summary buckets after the class-body loop: each child appends
its `bucketLabels` contribution in order. -/
def classBuckets (code : List Char) (effectiveLevel : String)
    (children : List Node) : List String × List String :=
  ((children.map (fun c => (bucketLabels code effectiveLevel c).1)).flatten,
   (children.map (fun c => (bucketLabels code effectiveLevel c).2)).flatten)

/-- The trailing summary comment lines (shrinker.py:374-382). -/
def classSummaryParts (effectiveLevel : String)
    (buckets : List String × List String) : List String :=
  if effectiveLevel = "extreme" then
    (if buckets.1 ≠ [] then
       ["    # Shrunk non computed fields: " ++ pyJoin ", " buckets.1]
     else []) ++
    (if buckets.2 ≠ [] then
       ["    # Shrunk computed_fields: " ++ pyJoin ", " buckets.2]
     else [])
  else []

/-- `f" (lines {start_line}-{end_line})"` (shrinker.py:284-286). -/
def lineRangeOf (node : Node) : String :=
  let startLine := node.startRow + 1
  let endLine := node.endRow + 1
  s!" (lines {startLine}-{endLine})"

/-- The synthetic in-file marker parts inserted before an expanded class
(shrinker.py:290-297 and 313-320).  Python truthiness of `header_path`
treats the empty string like `None`. -/
def headerMarkerParts (cfg : ShrinkCfg) (modelsCount idxAfter : Nat)
    (lineRange : String) : List String :=
  if modelsCount > 1 then
    if idxAfter = 1 then []
    else
      match cfg.headerPath with
      | some hp => if hp ≠ "" then ["", s!"# FILEPATH: {hp}{lineRange}"] else []
      | none => []
  else []

/-- The `first_header_suffix` assignment (shrinker.py:291-292, 314-315). -/
def headerSuffixUpdate (modelsCount idxAfter : Nat) (lineRange : String)
    (cur : Option String) : Option String :=
  if modelsCount > 1 && idxAfter = 1 then some lineRange else cur

/-- The mutable locals of the top-level loop of `shrink_python_file`:
`shrunken_parts`, `current_model_index`, `first_header_suffix`,
`actually_expanded_models`. -/
structure ShrinkState where
  parts : List String
  currentModelIndex : Nat
  firstHeaderSuffix : Option String
  expanded : Finset String

/-- `should_expand` (shrinker.py:270). -/
def shouldExpandClass (cfg : ShrinkCfg) (modelNames : Finset String) : Bool :=
  decide (∃ m ∈ modelNames, m ∈ cfg.expandModels)

/-- `has_pruned_methods` (shrinker.py:272-279). -/
def hasPrunedMethods (cfg : ShrinkCfg) (modelNames : Finset String) : Bool :=
  decide (∃ m ∈ modelNames, ∃ pm ∈ cfg.pruneMethods, pyStartsWith pm (s!"{m}."))

/-- The parts appended for one top-level `class_definition` with body
`bodyNode`, when `current_model_index` is `idxAfter` after its increment
(shrinker.py:266-384).  The mutation of `shrunken_parts` in the source
becomes the returned list. -/
def classNewParts (cfg : ShrinkCfg) (code : List Char) (modelsCount idxAfter : Nat)
    (node bodyNode : Node) : List String :=
  let modelNames := getOdooModelNamesFromBody bodyNode code
  let shouldExpand := shouldExpandClass cfg modelNames
  let hasPruned := hasPrunedMethods cfg modelNames
  let lineRange := lineRangeOf node
  if shouldExpand && !hasPruned then
    headerMarkerParts cfg modelsCount idxAfter lineRange ++
      [sliceText code node.startByte node.endByte] ++ [""]
  else
    let effectiveLevel := if shouldExpand then "none" else cfg.shrinkLevel
    let markerParts :=
      if shouldExpand then headerMarkerParts cfg modelsCount idxAfter lineRange else []
    markerParts ++ [pyStrip (sliceText code node.startByte bodyNode.startByte)] ++
      classBodyParts cfg code effectiveLevel modelNames bodyNode.children ++
      classSummaryParts effectiveLevel (classBuckets code effectiveLevel bodyNode.children) ++
      [""]

/-- The parts appended by one iteration of the top-level dispatch loop
(shrinker.py:252-396), as a function of the node and the
`current_model_index` before the iteration. -/
def topNodeNewParts (cfg : ShrinkCfg) (code : List Char) (modelsCount : Nat)
    (idxBefore : Nat) (node : Node) : List String :=
  if node.ty = "import_statement" || node.ty = "import_from_statement" then
    if !cfg.skipImports then [pyStrip (sliceText code node.startByte node.endByte)]
    else []
  else if node.ty = "class_definition" then
    match node.childByFieldName "body" with
    | none => []
    | some bodyNode =>
      let modelNames := getOdooModelNamesFromBody bodyNode code
      let idxAfter := if modelNames ≠ ∅ then idxBefore + 1 else idxBefore
      classNewParts cfg code modelsCount idxAfter node bodyNode
  else if node.ty = "function_definition" || node.ty = "decorated_definition" then
    processFunction cfg code node "" ∅ none ++
      (if cfg.shrinkLevel = "soft" then [""] else [])
  else if node.ty = "expression_statement" then
    match node.child 0 with
    | some expr =>
      if expr.ty = "assignment" then
        [cleanLine cfg.stripMetadata
          (pyStrip (sliceText code node.startByte node.endByte))]
      else []
    | none => []
  else []

/-- The `current_model_index` increment (shrinker.py:267-268). -/
def topNodeIdxAfter (code : List Char) (idxBefore : Nat) (node : Node) : Nat :=
  if node.ty = "class_definition" then
    match node.childByFieldName "body" with
    | none => idxBefore
    | some bodyNode =>
      if getOdooModelNamesFromBody bodyNode code ≠ ∅ then idxBefore + 1 else idxBefore
  else idxBefore

/-- The `first_header_suffix` update of one top-level iteration
(shrinker.py:290-292, 313-315): both expand branches perform the same
assignment when `should_expand` holds. -/
def topNodeSuffix (cfg : ShrinkCfg) (code : List Char) (modelsCount idxBefore : Nat)
    (node : Node) (cur : Option String) : Option String :=
  if node.ty = "class_definition" then
    match node.childByFieldName "body" with
    | none => cur
    | some bodyNode =>
      let modelNames := getOdooModelNamesFromBody bodyNode code
      let idxAfter := if modelNames ≠ ∅ then idxBefore + 1 else idxBefore
      if shouldExpandClass cfg modelNames then
        headerSuffixUpdate modelsCount idxAfter (lineRangeOf node) cur
      else cur
  else cur

/-- The `actually_expanded_models` contribution of one top-level
iteration (shrinker.py:282, 307): both expand branches add
`model_names & expand_models`. -/
def topNodeExpanded (cfg : ShrinkCfg) (code : List Char) (node : Node) : Finset String :=
  if node.ty = "class_definition" then
    match node.childByFieldName "body" with
    | none => ∅
    | some bodyNode =>
      let modelNames := getOdooModelNamesFromBody bodyNode code
      if shouldExpandClass cfg modelNames then modelNames ∩ cfg.expandModels else ∅
  else ∅

/-- One iteration of the top-level loop of `shrink_python_file`
(shrinker.py:252-396): the four mutable locals evolve independently, so
the iteration is their simultaneous update. -/
def processTopNode (cfg : ShrinkCfg) (code : List Char) (modelsCount : Nat)
    (st : ShrinkState) (node : Node) : ShrinkState :=
  { parts := st.parts ++ topNodeNewParts cfg code modelsCount st.currentModelIndex node
    currentModelIndex := topNodeIdxAfter code st.currentModelIndex node
    firstHeaderSuffix :=
      topNodeSuffix cfg code modelsCount st.currentModelIndex node st.firstHeaderSuffix
    expanded := st.expanded ∪ topNodeExpanded cfg code node }

/-- The pre-scan counting entity-bearing classes (shrinker.py:174-182). -/
def odooModelsCountOf (code : List Char) (root : Node) : Nat :=
  root.children.countP (fun n =>
    n.ty = "class_definition" &&
      (match n.childByFieldName "body" with
       | some b => decide (getOdooModelNamesFromBody b code ≠ ∅)
       | none => false))

/-- The trailing-blank pop loop (shrinker.py:398-399). -/
def popTrailingEmpty : List String → List String
  | [] => []
  | s :: rest =>
    match popTrailingEmpty rest with
    | [] => if s = "" then [] else [s]
    | r => s :: r

/-- `shrink_python_file` (shrinker.py:134-405), taking the already-parsed
root node together with the source bytes.  Returns
`(shrunken_content, actually_expanded_models, first_header_suffix)`. -/
def shrinkPythonFile (cfg : ShrinkCfg) (code : List Char) (root : Node) :
    String × Finset String × Option String :=
  let cnt := odooModelsCountOf code root
  let final := root.children.foldl (processTopNode cfg code cnt) ⟨[], 0, none, ∅⟩
  (pyJoin "\n" (popTrailingEmpty final.parts) ++ "\n",
   final.expanded, final.firstHeaderSuffix)

/-- A Python literal value, the possible results of `ast.literal_eval`. -/
inductive PyValue where
  | dict : List (String × PyValue) → PyValue
  | str : String → PyValue
  | intVal : Int → PyValue
  | listVal : List PyValue → PyValue
  | boolVal : Bool → PyValue
  | noneVal : PyValue

/-- `isinstance(v, dict)`. -/
def PyValue.isDict : PyValue → Bool
  | .dict _ => true
  | _ => false

/-- `shrink_manifest` (shrinker.py:11-36).  The external stdlib helpers
are abstracted: `literalEval` models `ast.literal_eval` (`none` for a
parse failure, i.e. a raised exception), `pformat` models
`pprint.pformat` on the filtered dict. -/
def shrinkManifest (literalEval : String → Option PyValue)
    (pformat : List (String × PyValue) → String)
    (content : String) (pruneMode : String) : String :=
  match literalEval content with
  | none => content
  | some m =>
    match m with
    | .dict entries =>
      let keepKeys : List String :=
        ["name", "summary", "depends", "external_dependencies",
         "pre_init_hook", "post_init_hook", "uninstall_hook"] ++
        (if pruneMode = "soft" || pruneMode = "none" then ["data"] else [])
      pformat (entries.filter (fun kv => keepKeys.contains kv.1))
    | _ => content

/-!
Concrete parsed inputs used by witnesses and counterexamples.  Each is a
small Python source file together with its tree-sitter parse, with byte
offsets and rows matching the source text exactly.
-/

/-- Source F:
`class A:` / `    _name = 'x.y'` / `    a = fields.Char()` /
`    def m(self):` / `        pass`. -/
def exFCode : List Char :=
  ("class A:\n    _name = 'x.y'\n    a = fields.Char()\n" ++
   "    def m(self):\n        pass\n").data

def exFNameId : Node := .mk "identifier" 13 18 1 1 [] []

def exFNameStr : Node := .mk "string" 21 26 1 1 [] []

def exFAssign1 : Node :=
  .mk "assignment" 13 26 1 1 [("left", exFNameId), ("right", exFNameStr)]
    [exFNameId, .mk "=" 19 20 1 1 [] [], exFNameStr]

def exFEs1 : Node := .mk "expression_statement" 13 26 1 1 [] [exFAssign1]

def exFAId : Node := .mk "identifier" 31 32 2 2 [] []

def exFFieldsId : Node := .mk "identifier" 35 41 2 2 [] []

def exFCharId : Node := .mk "identifier" 42 46 2 2 [] []

def exFAttr : Node :=
  .mk "attribute" 35 46 2 2 [("object", exFFieldsId), ("attribute", exFCharId)]
    [exFFieldsId, .mk "." 41 42 2 2 [] [], exFCharId]

def exFArgs : Node :=
  .mk "argument_list" 46 48 2 2 []
    [.mk "(" 46 47 2 2 [] [], .mk ")" 47 48 2 2 [] []]

def exFCall : Node :=
  .mk "call" 35 48 2 2 [("function", exFAttr), ("arguments", exFArgs)]
    [exFAttr, exFArgs]

def exFAssign2 : Node :=
  .mk "assignment" 31 48 2 2 [("left", exFAId), ("right", exFCall)]
    [exFAId, .mk "=" 33 34 2 2 [] [], exFCall]

def exFEs2 : Node := .mk "expression_statement" 31 48 2 2 [] [exFAssign2]

def exFMId : Node := .mk "identifier" 57 58 3 3 [] []

def exFParams : Node := .mk "parameters" 58 64 3 3 [] []

def exFPass : Node := .mk "pass_statement" 74 78 4 4 [] []

def exFFuncBody : Node := .mk "block" 74 78 4 4 [] [exFPass]

def exFFunc : Node :=
  .mk "function_definition" 53 78 3 4
    [("name", exFMId), ("parameters", exFParams), ("body", exFFuncBody)]
    [.mk "def" 53 56 3 3 [] [], exFMId, exFParams, exFFuncBody]

def exFClassNameId : Node := .mk "identifier" 6 7 0 0 [] []

def exFClassBody : Node := .mk "block" 13 78 1 4 [] [exFEs1, exFEs2, exFFunc]

def exFClass : Node :=
  .mk "class_definition" 0 78 0 4
    [("name", exFClassNameId), ("body", exFClassBody)]
    [.mk "class" 0 5 0 0 [] [], exFClassNameId, exFClassBody]

def exFRoot : Node := .mk "module" 0 79 0 5 [] [exFClass]

/-- A request over source F with a given level and otherwise empty
sets and off flags. -/
def exFCfg (lvl : String) : ShrinkCfg := ⟨lvl, ∅, false, false, ∅, ∅, none⟩

/-- Source G:
`class B:` / `    _name = 'b.b'` /
`    partner_id = fields.Many2one('res.partner')`. -/
def exGCode : List Char :=
  ("class B:\n    _name = 'b.b'\n" ++
   "    partner_id = fields.Many2one('res.partner')\n").data

def exGNameId : Node := .mk "identifier" 13 18 1 1 [] []

def exGNameStr : Node := .mk "string" 21 26 1 1 [] []

def exGAssign1 : Node :=
  .mk "assignment" 13 26 1 1 [("left", exGNameId), ("right", exGNameStr)]
    [exGNameId, .mk "=" 19 20 1 1 [] [], exGNameStr]

def exGEs1 : Node := .mk "expression_statement" 13 26 1 1 [] [exGAssign1]

def exGPartnerId : Node := .mk "identifier" 31 41 2 2 [] []

def exGFieldsId : Node := .mk "identifier" 44 50 2 2 [] []

def exGMany2oneId : Node := .mk "identifier" 51 59 2 2 [] []

def exGAttr : Node :=
  .mk "attribute" 44 59 2 2 [("object", exGFieldsId), ("attribute", exGMany2oneId)]
    [exGFieldsId, .mk "." 50 51 2 2 [] [], exGMany2oneId]

def exGComodelStr : Node := .mk "string" 60 73 2 2 [] []

def exGArgs : Node :=
  .mk "argument_list" 59 74 2 2 []
    [.mk "(" 59 60 2 2 [] [], exGComodelStr, .mk ")" 73 74 2 2 [] []]

def exGCall : Node :=
  .mk "call" 44 74 2 2 [("function", exGAttr), ("arguments", exGArgs)]
    [exGAttr, exGArgs]

def exGAssign2 : Node :=
  .mk "assignment" 31 74 2 2 [("left", exGPartnerId), ("right", exGCall)]
    [exGPartnerId, .mk "=" 42 43 2 2 [] [], exGCall]

def exGEs2 : Node := .mk "expression_statement" 31 74 2 2 [] [exGAssign2]

def exGClassNameId : Node := .mk "identifier" 6 7 0 0 [] []

def exGClassBody : Node := .mk "block" 13 74 1 2 [] [exGEs1, exGEs2]

def exGClass : Node :=
  .mk "class_definition" 0 74 0 2
    [("name", exGClassNameId), ("body", exGClassBody)]
    [.mk "class" 0 5 0 0 [] [], exGClassNameId, exGClassBody]

def exGRoot : Node := .mk "module" 0 75 0 3 [] [exGClass]

/-- The request of spec scenario 4 over source G: level `extreme`,
`relevant_models = {'res.partner'}`. -/
def exGCfg : ShrinkCfg := ⟨"extreme", ∅, false, false, {"res.partner"}, ∅, none⟩

/-- Source H:
`class C:` / `    _inherit = 'a.a'` / `    _name = 'b.b'`
(the inherits-from marker precedes the primary-name marker). -/
def exHCode : List Char :=
  ("class C:\n    _inherit = 'a.a'\n    _name = 'b.b'\n").data

def exHInheritId : Node := .mk "identifier" 13 21 1 1 [] []

def exHInheritStr : Node := .mk "string" 24 29 1 1 [] []

def exHAssign1 : Node :=
  .mk "assignment" 13 29 1 1 [("left", exHInheritId), ("right", exHInheritStr)]
    [exHInheritId, .mk "=" 22 23 1 1 [] [], exHInheritStr]

def exHEs1 : Node := .mk "expression_statement" 13 29 1 1 [] [exHAssign1]

def exHNameId : Node := .mk "identifier" 34 39 2 2 [] []

def exHNameStr : Node := .mk "string" 42 47 2 2 [] []

def exHAssign2 : Node :=
  .mk "assignment" 34 47 2 2 [("left", exHNameId), ("right", exHNameStr)]
    [exHNameId, .mk "=" 40 41 2 2 [] [], exHNameStr]

def exHEs2 : Node := .mk "expression_statement" 34 47 2 2 [] [exHAssign2]

def exHClassBody : Node := .mk "block" 13 47 1 2 [] [exHEs1, exHEs2]

/-- Source I:
`class D:` / `    _inherit = ['a.a', 'b.b']`
(the inherits-from marker assigned a list literal). -/
def exICode : List Char :=
  ("class D:\n    _inherit = ['a.a', 'b.b']\n").data

def exIInheritId : Node := .mk "identifier" 13 21 1 1 [] []

def exIStr1 : Node := .mk "string" 25 30 1 1 [] []

def exIStr2 : Node := .mk "string" 32 37 1 1 [] []

def exIList : Node :=
  .mk "list" 24 38 1 1 []
    [.mk "[" 24 25 1 1 [] [], exIStr1, .mk "," 30 31 1 1 [] [], exIStr2,
     .mk "]" 37 38 1 1 [] []]

def exIAssign : Node :=
  .mk "assignment" 13 38 1 1 [("left", exIInheritId), ("right", exIList)]
    [exIInheritId, .mk "=" 22 23 1 1 [] [], exIList]

def exIEs : Node := .mk "expression_statement" 13 38 1 1 [] [exIAssign]

def exIClassBody : Node := .mk "block" 13 38 1 1 [] [exIEs]

/-- Source J:
`class E:` / `    _name = 'x.y'` / `    x = 5`
(a plain assignment with a non-factory right-hand side). -/
def exJCode : List Char :=
  ("class E:\n    _name = 'x.y'\n    x = 5\n").data

def exJNameId : Node := .mk "identifier" 13 18 1 1 [] []

def exJNameStr : Node := .mk "string" 21 26 1 1 [] []

def exJAssign1 : Node :=
  .mk "assignment" 13 26 1 1 [("left", exJNameId), ("right", exJNameStr)]
    [exJNameId, .mk "=" 19 20 1 1 [] [], exJNameStr]

def exJEs1 : Node := .mk "expression_statement" 13 26 1 1 [] [exJAssign1]

def exJXId : Node := .mk "identifier" 31 32 2 2 [] []

def exJInt : Node := .mk "integer" 35 36 2 2 [] []

def exJAssign2 : Node :=
  .mk "assignment" 31 36 2 2 [("left", exJXId), ("right", exJInt)]
    [exJXId, .mk "=" 33 34 2 2 [] [], exJInt]

def exJEs2 : Node := .mk "expression_statement" 31 36 2 2 [] [exJAssign2]

def exJClassNameId : Node := .mk "identifier" 6 7 0 0 [] []

def exJClassBody : Node := .mk "block" 13 36 1 2 [] [exJEs1, exJEs2]

def exJClass : Node :=
  .mk "class_definition" 0 36 0 2
    [("name", exJClassNameId), ("body", exJClassBody)]
    [.mk "class" 0 5 0 0 [] [], exJClassNameId, exJClassBody]

def exJRoot : Node := .mk "module" 0 37 0 3 [] [exJClass]

/-- Source K:
`class A:` / `    _name = 'x.y'` / `    """Doc text."""` / `    a = 1`
(a class body containing a docstring statement). -/
def exKCode : List Char :=
  ("class A:\n    _name = 'x.y'\n    \"\"\"Doc text.\"\"\"\n    a = 1\n").data

def exKNameId : Node := .mk "identifier" 13 18 1 1 [] []

def exKNameStr : Node := .mk "string" 21 26 1 1 [] []

def exKAssign1 : Node :=
  .mk "assignment" 13 26 1 1 [("left", exKNameId), ("right", exKNameStr)]
    [exKNameId, .mk "=" 19 20 1 1 [] [], exKNameStr]

def exKEs1 : Node := .mk "expression_statement" 13 26 1 1 [] [exKAssign1]

def exKDocStr : Node := .mk "string" 31 46 2 2 [] []

def exKEs2 : Node := .mk "expression_statement" 31 46 2 2 [] [exKDocStr]

def exKAId : Node := .mk "identifier" 51 52 3 3 [] []

def exKInt : Node := .mk "integer" 55 56 3 3 [] []

def exKAssign3 : Node :=
  .mk "assignment" 51 56 3 3 [("left", exKAId), ("right", exKInt)]
    [exKAId, .mk "=" 53 54 3 3 [] [], exKInt]

def exKEs3 : Node := .mk "expression_statement" 51 56 3 3 [] [exKAssign3]

def exKClassNameId : Node := .mk "identifier" 6 7 0 0 [] []

def exKClassBody : Node := .mk "block" 13 56 1 3 [] [exKEs1, exKEs2, exKEs3]

def exKClass : Node :=
  .mk "class_definition" 0 56 0 3
    [("name", exKClassNameId), ("body", exKClassBody)]
    [.mk "class" 0 5 0 0 [] [], exKClassNameId, exKClassBody]

def exKRoot : Node := .mk "module" 0 57 0 4 [] [exKClass]

/-!
Derived forms of the shrinking loop used by the proofs: the fold over
top-level nodes is characterised by four independent accumulators.
-/

/-- `"\n".join` of the popped parts plus trailing newline
(shrinker.py:398-402). -/
def assembleOut (parts : List String) : String :=
  pyJoin "\n" (popTrailingEmpty parts) ++ "\n"

/-- All parts emitted by the top-level loop over `l`, starting from model
index `idx`. -/
def shrinkPartsFrom (cfg : ShrinkCfg) (code : List Char) (modelsCount : Nat) :
    Nat → List Node → List String
  | _, [] => []
  | idx, n :: rest =>
    topNodeNewParts cfg code modelsCount idx n ++
      shrinkPartsFrom cfg code modelsCount (topNodeIdxAfter code idx n) rest

/-- The model index after the top-level loop over `l`. -/
def idxAfterList (code : List Char) : Nat → List Node → Nat
  | idx, [] => idx
  | idx, n :: rest => idxAfterList code (topNodeIdxAfter code idx n) rest

/-- The `first_header_suffix` after the top-level loop over `l`. -/
def suffixAfterList (cfg : ShrinkCfg) (code : List Char) (modelsCount : Nat) :
    Nat → Option String → List Node → Option String
  | _, cur, [] => cur
  | idx, cur, n :: rest =>
    suffixAfterList cfg code modelsCount (topNodeIdxAfter code idx n)
      (topNodeSuffix cfg code modelsCount idx n cur) rest

/-- The `actually_expanded_models` contributions of the top-level loop
over `l`. -/
def expandedOf (cfg : ShrinkCfg) (code : List Char) : List Node → Finset String
  | [] => ∅
  | n :: rest => topNodeExpanded cfg code n ∪ expandedOf cfg code rest

/-- The entity names one top-level node declares (empty unless it is a
class with a body): the specification-side reading of "declared by some
class in that file". -/
def classDeclNames (code : List Char) (n : Node) : Finset String :=
  if n.ty = "class_definition" then
    match n.childByFieldName "body" with
    | some b => getOdooModelNamesFromBody b code
    | none => ∅
  else ∅

/-- The entity names declared by some top-level class of the file. -/
def declaredTopLevelNames (code : List Char) (root : Node) : Finset String :=
  root.children.foldr (fun n acc => classDeclNames code n ∪ acc) ∅

/-!
General lemmas about the emission machinery.
-/

theorem foldl_processTopNode (cfg : ShrinkCfg) (code : List Char) (cnt : Nat) :
    ∀ (l : List Node) (st : ShrinkState),
      l.foldl (processTopNode cfg code cnt) st =
        ⟨st.parts ++ shrinkPartsFrom cfg code cnt st.currentModelIndex l,
         idxAfterList code st.currentModelIndex l,
         suffixAfterList cfg code cnt st.currentModelIndex st.firstHeaderSuffix l,
         st.expanded ∪ expandedOf cfg code l⟩
  | [], st => by
    simp [shrinkPartsFrom, idxAfterList, suffixAfterList, expandedOf]
  | n :: rest, st => by
    rw [List.foldl_cons, foldl_processTopNode cfg code cnt rest]
    simp [processTopNode, shrinkPartsFrom, idxAfterList, suffixAfterList, expandedOf,
      List.append_assoc, Finset.union_assoc]

theorem shrinkPythonFile_eq (cfg : ShrinkCfg) (code : List Char) (root : Node) :
    shrinkPythonFile cfg code root =
      (assembleOut
        (shrinkPartsFrom cfg code (odooModelsCountOf code root) 0 root.children),
       expandedOf cfg code root.children,
       suffixAfterList cfg code (odooModelsCountOf code root) 0 none root.children) := by
  simp only [shrinkPythonFile, assembleOut, foldl_processTopNode,
    List.nil_append, Finset.empty_union]

theorem mem_popTrailingEmpty {p : String} (hp : p ≠ "") :
    ∀ {l : List String}, p ∈ l → p ∈ popTrailingEmpty l
  | [], h => absurd h (List.not_mem_nil p)
  | s :: rest, h => by
    rcases List.mem_cons.mp h with rfl | hmem
    · unfold popTrailingEmpty
      match hrec : popTrailingEmpty rest with
      | [] => simp [hp]
      | r :: rs => simp
    · have hrec2 := mem_popTrailingEmpty hp hmem
      unfold popTrailingEmpty
      match hrec : popTrailingEmpty rest with
      | [] => rw [hrec] at hrec2; exact absurd hrec2 (List.not_mem_nil p)
      | r :: rs => rw [hrec] at hrec2; simpa using Or.inr hrec2

theorem infix_pyJoin_of_mem {p : String} :
    ∀ {l : List String}, p ∈ l → p.data <:+: (pyJoin "\n" l).data
  | [], h => absurd h (List.not_mem_nil p)
  | [s], h => by
    rcases List.mem_singleton.mp h with rfl
    exact List.infix_refl _
  | s :: s' :: rest, h => by
    rcases List.mem_cons.mp h with rfl | hmem
    · show p.data <:+: (p ++ "\n" ++ pyJoin "\n" (s' :: rest)).data
      simp only [String.data_append]
      exact ((p.data.prefix_append _).trans (List.prefix_append _ _)).isInfix
    · have ih := infix_pyJoin_of_mem hmem
      show p.data <:+: (s ++ "\n" ++ pyJoin "\n" (s' :: rest)).data
      simp only [String.data_append]
      exact ih.trans (List.suffix_append _ _).isInfix

theorem infix_assembleOut_of_mem {p : String} {l : List String}
    (hmem : p ∈ l) (hp : p ≠ "") :
    p.data <:+: (assembleOut l).data := by
  have h1 := infix_pyJoin_of_mem (mem_popTrailingEmpty hp hmem)
  unfold assembleOut
  simp only [String.data_append]
  exact h1.trans (List.prefix_append _ _).isInfix

theorem shrinkPartsFrom_mem {cfg : ShrinkCfg} {code : List Char} {cnt : Nat}
    {n : Node} {p : String}
    (hp : ∀ idx, p ∈ topNodeNewParts cfg code cnt idx n) :
    ∀ {l : List Node} (idx : Nat), n ∈ l → p ∈ shrinkPartsFrom cfg code cnt idx l
  | [], _, h => absurd h (List.not_mem_nil n)
  | x :: rest, idx, h => by
    rcases List.mem_cons.mp h with rfl | hmem
    · exact List.mem_append.mpr (Or.inl (hp idx))
    · exact List.mem_append.mpr (Or.inr (shrinkPartsFrom_mem hp _ hmem))

theorem expandedOf_mem {cfg : ShrinkCfg} {code : List Char} {n : Node} :
    ∀ {l : List Node}, n ∈ l →
      topNodeExpanded cfg code n ⊆ expandedOf cfg code l
  | [], h => absurd h (List.not_mem_nil n)
  | x :: rest, h => by
    rcases List.mem_cons.mp h with rfl | hmem
    · exact Finset.subset_union_left
    · exact (expandedOf_mem hmem).trans Finset.subset_union_right

theorem inter_empty_of_not_shouldExpand {cfg : ShrinkCfg} {names : Finset String}
    (h : shouldExpandClass cfg names = false) :
    names ∩ cfg.expandModels = ∅ := by
  simp only [shouldExpandClass, decide_eq_false_iff_not, not_exists] at h
  ext m
  simp only [Finset.mem_inter, Finset.not_mem_empty, iff_false, not_and]
  exact fun hm hex => (h m) ⟨hm, hex⟩

theorem topNodeExpanded_eq (cfg : ShrinkCfg) (code : List Char) (n : Node) :
    topNodeExpanded cfg code n = classDeclNames code n ∩ cfg.expandModels := by
  unfold topNodeExpanded classDeclNames
  by_cases hty : n.ty = "class_definition"
  · simp only [hty, if_true]
    match n.childByFieldName "body" with
    | none => simp
    | some b =>
      by_cases hse : shouldExpandClass cfg (getOdooModelNamesFromBody b code) = true
      · simp [hse]
      · rw [Bool.not_eq_true] at hse
        simp [hse, inter_empty_of_not_shouldExpand hse]
  · simp [hty]

theorem expandedOf_eq (cfg : ShrinkCfg) (code : List Char) :
    ∀ l : List Node,
      expandedOf cfg code l =
        (l.foldr (fun n acc => classDeclNames code n ∪ acc) ∅) ∩ cfg.expandModels
  | [] => by simp [expandedOf]
  | n :: rest => by
    simp only [expandedOf, List.foldr_cons, expandedOf_eq cfg code rest,
      topNodeExpanded_eq, Finset.union_inter_distrib_right]

theorem classFullText_mem_topNodeNewParts {cfg : ShrinkCfg} {code : List Char}
    {cnt : Nat} {node bodyNode : Node}
    (hty : node.ty = "class_definition")
    (hbody : node.childByFieldName "body" = some bodyNode)
    (hse : shouldExpandClass cfg (getOdooModelNamesFromBody bodyNode code) = true)
    (hpr : hasPrunedMethods cfg (getOdooModelNamesFromBody bodyNode code) = false)
    (idx : Nat) :
    sliceText code node.startByte node.endByte ∈
      topNodeNewParts cfg code cnt idx node := by
  simp only [topNodeNewParts, hty, hbody, classNewParts, hse, hpr]
  simp

theorem expanded_subset_of_class {cfg : ShrinkCfg} {code : List Char}
    {node bodyNode : Node}
    (hty : node.ty = "class_definition")
    (hbody : node.childByFieldName "body" = some bodyNode)
    (hse : shouldExpandClass cfg (getOdooModelNamesFromBody bodyNode code) = true) :
    getOdooModelNamesFromBody bodyNode code ∩ cfg.expandModels ⊆
      topNodeExpanded cfg code node := by
  simp only [topNodeExpanded, hty, hbody, hse]
  simp

/-!
Claim theorems.
-/

/-- C1: for every source file and every aggressiveness level, if some
entity name declared by a class in the file is in the request's
expand set, and no entry of the force-prune set has the prefix
`"<entity>."` for any declared entity name, then `shrink_python_file`
emits that class's entire original source byte range verbatim in the
output, and every name in the intersection of the class's declared names
and the expand set is recorded as matched. -/
theorem c1_expand_override (cfg : ShrinkCfg) (code : List Char)
    (root node bodyNode : Node)
    (hmem : node ∈ root.children)
    (hty : node.ty = "class_definition")
    (hbody : node.childByFieldName "body" = some bodyNode)
    (hexp : ∃ m ∈ getOdooModelNamesFromBody bodyNode code, m ∈ cfg.expandModels)
    (hnoprune : ∀ m ∈ getOdooModelNamesFromBody bodyNode code,
        ∀ pm ∈ cfg.pruneMethods, ¬ pyStartsWith pm (s!"{m}."))
    (hne : sliceText code node.startByte node.endByte ≠ "") :
    (sliceText code node.startByte node.endByte).data <:+:
        ((shrinkPythonFile cfg code root).1).data ∧
      getOdooModelNamesFromBody bodyNode code ∩ cfg.expandModels ⊆
        (shrinkPythonFile cfg code root).2.1 := by
  have hse : shouldExpandClass cfg (getOdooModelNamesFromBody bodyNode code) = true := by
    simp only [shouldExpandClass, decide_eq_true_eq]
    exact hexp
  have hpr : hasPrunedMethods cfg (getOdooModelNamesFromBody bodyNode code) = false := by
    simp only [hasPrunedMethods, decide_eq_false_iff_not, not_exists]
    intro m hcon
    rcases hcon with ⟨hm, pm, hpm, hpref⟩
    exact hnoprune m hm pm hpm hpref
  rw [shrinkPythonFile_eq]
  constructor
  · exact infix_assembleOut_of_mem
      (shrinkPartsFrom_mem
        (fun idx => classFullText_mem_topNodeNewParts hty hbody hse hpr idx) 0 hmem)
      hne
  · exact (expanded_subset_of_class hty hbody hse).trans (expandedOf_mem hmem)

/-- Witness for C1 at source F with `expand_set = {'x.y'}` and level
`hard`: the whole class text appears verbatim in the output and `x.y` is
matched. -/
theorem c1_expand_override_witness :
    (sliceText exFCode (exFClass).startByte (exFClass).endByte).data <:+:
        ((shrinkPythonFile ⟨"hard", {"x.y"}, false, false, ∅, ∅, none⟩
          exFCode exFRoot).1).data ∧
      getOdooModelNamesFromBody exFClassBody exFCode ∩ ({"x.y"} : Finset String) ⊆
        (shrinkPythonFile ⟨"hard", {"x.y"}, false, false, ∅, ∅, none⟩
          exFCode exFRoot).2.1 :=
  c1_expand_override ⟨"hard", {"x.y"}, false, false, ∅, ∅, none⟩ exFCode
    exFRoot exFClass exFClassBody
    (by simp [exFRoot, Node.children])
    rfl
    rfl
    (by decide)
    (by decide)
    (by decide)

/-- C7: the returned matched-name set equals exactly the set of entity
names both requested in `expand_set` and declared by some top-level class
of the file; in particular it is a subset of the expand set. -/
theorem c7_matched_expand_accuracy (cfg : ShrinkCfg) (code : List Char) (root : Node) :
    (shrinkPythonFile cfg code root).2.1 =
        declaredTopLevelNames code root ∩ cfg.expandModels ∧
      (shrinkPythonFile cfg code root).2.1 ⊆ cfg.expandModels := by
  rw [shrinkPythonFile_eq]
  refine ⟨?_, ?_⟩
  · simpa [declaredTopLevelNames] using expandedOf_eq cfg code root.children
  · rw [expandedOf_eq]
    exact Finset.inter_subset_right

/-- C2: a method whose qualified name `<entity>.<method>` is in the
force-prune set never keeps its original body: for every override level
(including the `none` override used when its owning entity is
simultaneously in `expand_set`), `process_function` emits exactly the
verbatim header lines followed by the single placeholder statement
tagged `pruned by request`. -/
theorem c2_force_prune_priority (cfg : ShrinkCfg) (code : List Char)
    (node fdn nameN bodyN : Node) (indentStr : String)
    (contextModels : Finset String) (overrideLevel : Option String)
    (m : String)
    (hres : resolveFuncDef node = some fdn)
    (hname : fdn.childByFieldName "name" = some nameN)
    (hbody : fdn.childByFieldName "body" = some bodyN)
    (hm : m ∈ contextModels)
    (hpm : (s!"{m}.{sliceText code nameN.startByte nameN.endByte}") ∈
      cfg.pruneMethods) :
    processFunction cfg code node indentStr contextModels overrideLevel =
      (pySplitlines (pyStrip (sliceText code node.startByte bodyN.startByte))).filterMap
        (fun l =>
          let sl := pyStrip l
          if sl ≠ "" then some (indentStr ++ sl) else none) ++
        [indentStr ++ "    pass  # pruned by request"] := by
  have hex : ∃ m ∈ contextModels,
      s!"{m}.{sliceText code nameN.startByte nameN.endByte}" ∈ cfg.pruneMethods :=
    ⟨m, hm, hpm⟩
  unfold processFunction processFunctionCore shouldPruneFn
  rw [hres]
  simp only [hname, hbody]
  simp [hex]

/-- Witness for C2 at source F: with `prune_methods = {'x.y.m'}`,
`expand_set`-style override level `extreme`, the method `m` of entity
`x.y` is emitted as its header plus the pruned-by-request placeholder. -/
theorem c2_force_prune_priority_witness :
    processFunction ⟨"extreme", {"x.y"}, false, false, ∅, {"x.y.m"}, none⟩
        exFCode exFFunc "    " {"x.y"} (some "extreme") =
      (pySplitlines (pyStrip (sliceText exFCode (exFFunc).startByte
          (exFFuncBody).startByte))).filterMap
        (fun l =>
          let sl := pyStrip l
          if sl ≠ "" then some ("    " ++ sl) else none) ++
        ["    " ++ "    pass  # pruned by request"] :=
  c2_force_prune_priority ⟨"extreme", {"x.y"}, false, false, ∅, {"x.y.m"}, none⟩
    exFCode exFFunc exFFunc exFMId exFFuncBody "    " {"x.y"} (some "extreme")
    "x.y" rfl rfl rfl (by decide) (by decide)

/-- C10: `shrink_manifest` is pass-through on failure: when the literal
parse raises (modelled as `none`) or yields a non-dict value, the input
content is returned unchanged and no exception escapes. -/
theorem c10_manifest_passthrough (literalEval : String → Option PyValue)
    (pformat : List (String × PyValue) → String) (content pruneMode : String)
    (hfail : literalEval content = none ∨
      ∃ v, literalEval content = some v ∧ v.isDict = false) :
    shrinkManifest literalEval pformat content pruneMode = content := by
  unfold shrinkManifest
  rcases hfail with h | ⟨v, hv, hd⟩
  · rw [h]
  · rw [hv]
    cases v <;> simp_all [PyValue.isDict]

/-- Witness for C10: a parse failure returns the content unchanged. -/
theorem c10_manifest_passthrough_witness :
    shrinkManifest (fun _ => none) (fun _ => "") "not a manifest" "soft" =
      "not a manifest" :=
  c10_manifest_passthrough (fun _ => none) (fun _ => "") "not a manifest" "soft"
    (Or.inl rfl)

/-- C4 counterexample: in source H the inherits-from marker (`_inherit =
'a.a'`) precedes the primary-name marker (`_name = 'b.b'`), and
`_get_odoo_model_name_from_body` returns `a.a` — not the primary-name
value `b.b` the claim requires regardless of order. -/
theorem c4_counterexample :
    getOdooModelNameFromBody exHClassBody exHCode = some "a.a" ∧
      some "a.a" ≠ some "b.b" := by
  constructor
  · decide
  · decide

theorem findSome?_first {α β : Type} (f : α → Option β) :
    ∀ (pre : List α) (c : α) (post : List α) (v : β),
      (∀ d ∈ pre, f d = none) → f c = some v →
      (pre ++ c :: post).findSome? f = some v
  | [], c, post, v, _, hc => by simp [List.findSome?_cons, hc]
  | d :: ds, c, post, v, hpre, hc => by
    have hd : f d = none := hpre d (List.mem_cons_self d ds)
    simp only [List.cons_append, List.findSome?_cons, hd]
    exact findSome?_first f ds c post v
      (fun e he => hpre e (List.mem_cons_of_mem d he)) hc

/-- C4 amended: the canonical name returned for scoring is the value of
the first marker assignment in class-body order — whichever of `_name` or
`_inherit` with a string right-hand side comes first — so the primary-name
marker wins only when it appears before the inherits-from marker. -/
theorem c4_first_marker_wins (code : List Char) (body : Node)
    (pre : List Node) (c : Node) (post : List Node) (v : String)
    (hsplit : body.children = pre ++ c :: post)
    (hpre : ∀ d ∈ pre, markerStringValue code d = none)
    (hc : markerStringValue code c = some v) :
    getOdooModelNameFromBody body code = some v := by
  unfold getOdooModelNameFromBody
  rw [hsplit]
  exact findSome?_first (markerStringValue code) pre c post v hpre hc

/-- Witness for C4 amended at source H: the first marker is the
inherits-from assignment and its value `a.a` is returned. -/
theorem c4_first_marker_wins_witness :
    getOdooModelNameFromBody exHClassBody exHCode = some "a.a" :=
  c4_first_marker_wins exHCode exHClassBody [] exHEs1 [exHEs2] "a.a"
    rfl (fun d hd => absurd hd (List.not_mem_nil d)) (by decide)

/-- C8 (code bug): for a class whose `_inherit` marker is assigned a list
literal, `_get_odoo_model_name_from_body` extracts nothing — despite its
own `# Handle list of inherits` comment — while the spec-modelled
`getOdooModelNamesFromBody` declares every string element of the list. -/
theorem c8_inherit_list_dropped :
    getOdooModelNameFromBody exIClassBody exICode = none ∧
      getOdooModelNamesFromBody exIClassBody exICode = {"a.a", "b.b"} := by
  constructor
  · decide
  · decide

/-- C9 counterexample: in source J the class `x.y` contains the plain
assignment `x = 5`, which is not a Field (no factory call on the right),
yet `get_odoo_model_stats` accumulates `field_count = 1` while the count
of Field-classified declarations in the body is `0`. -/
theorem c9_counterexample :
    lookupStats (getOdooModelStats exJRoot exJCode) "x.y" =
        some ⟨1, 0, 1⟩ ∧
      exJClassBody.children.countP
          (fun c => (getFieldInfo c exJCode).isField) = 0 ∧
      (1 : Nat) ≠ 0 := by
  refine ⟨by decide, by decide, by decide⟩

theorem applyKeywordArg_isField (code : List Char) (info : FieldInfo) (arg : Node) :
    (applyKeywordArg code info arg).isField = info.isField := by
  unfold applyKeywordArg
  by_cases hty : arg.ty = "keyword_argument"
  · rw [if_pos hty]
    cases hk : arg.childByFieldName "name" with
    | none => rfl
    | some keyN =>
      cases hv : arg.childByFieldName "value" with
      | none => rfl
      | some valN =>
        dsimp only
        repeat' first | rfl | split
  · rw [if_neg hty]

theorem getFieldInfoArgs_isField (code : List Char) (info : FieldInfo)
    (attrName : String) (args : Node) :
    (getFieldInfoArgs code info attrName args).isField = info.isField := by
  have hkw : ∀ (l : List Node) (i : FieldInfo),
      (l.foldl (applyKeywordArg code) i).isField = i.isField := by
    intro l
    induction l with
    | nil => intro i; rfl
    | cons a as ih =>
      intro i
      rw [List.foldl_cons, ih, applyKeywordArg_isField]
  unfold getFieldInfoArgs
  repeat' split
  all_goals simp [hkw]

/-- C9 amended: `field_count` counts every class-body child that is a
single-target assignment to a plain identifier not starting with an
underscore, regardless of the right-hand side; in particular every
Field-classified declaration satisfies that weaker shape, so the stats
counter counts a superset of the Field declarations. -/
theorem c9_field_count_superset (code : List Char) (child : Node)
    (h : (getFieldInfo child code).isField = true) :
    statsFieldLike code child = true := by
  unfold getFieldInfo at h
  by_cases hty : child.ty = "expression_statement"
  · rw [if_neg (fun hne => hne hty)] at h
    cases hc : child.child 0 with
    | none => rw [hc] at h; simp at h
    | some assign =>
      rw [hc] at h
      dsimp only at h
      by_cases ha : assign.ty = "assignment"
      · rw [if_neg (fun hne => hne ha)] at h
        cases hl : assign.childByFieldName "left" with
        | none => rw [hl] at h; simp at h
        | some left =>
          rw [hl] at h
          dsimp only at h
          by_cases hlt : left.ty = "identifier"
          · rw [if_neg (fun hne => hne hlt)] at h
            by_cases hus :
                pyStartsWith (sliceText code left.startByte left.endByte) "_" = true
            · rw [if_pos hus] at h
              simp at h
            · simp only [Bool.not_eq_true] at hus
              simp [statsFieldLike, hty, hc, ha, hl, hlt, hus]
          · rw [if_pos (by simp [hlt])] at h
            simp at h
      · rw [if_pos (by simp [ha])] at h
        simp at h
  · rw [if_pos (by simp [hty])] at h
    simp at h

/-- Witness for C9 amended at source G: the relational field declaration
`partner_id = ...` is Field-classified, hence counted by the stats
field counter. -/
theorem c9_field_count_superset_witness :
    statsFieldLike exGCode exGEs2 = true :=
  c9_field_count_superset exGCode exGEs2 (by decide)

theorem indented_ne_empty (s : String) : ("    " ++ s) ≠ "" := by
  intro h
  have hd := congrArg String.data h
  simp [String.data_append] at hd

theorem mem_classBodyParts {cfg : ShrinkCfg} {code : List Char}
    {effectiveLevel : String} {modelNames : Finset String} {child : Node}
    {children : List Node} {p : String}
    (hp : p ∈ classChildParts cfg code effectiveLevel modelNames child)
    (hc : child ∈ children) :
    p ∈ classBodyParts cfg code effectiveLevel modelNames children := by
  unfold classBodyParts
  exact List.mem_flatten.mpr
    ⟨classChildParts cfg code effectiveLevel modelNames child,
     List.mem_map_of_mem _ hc, hp⟩

theorem mem_classBuckets1 {code : List Char} {effectiveLevel : String}
    {child : Node} {children : List Node} {nm : String}
    (hp : nm ∈ (bucketLabels code effectiveLevel child).1)
    (hc : child ∈ children) :
    nm ∈ (classBuckets code effectiveLevel children).1 := by
  unfold classBuckets
  exact List.mem_flatten.mpr
    ⟨(bucketLabels code effectiveLevel child).1,
     List.mem_map_of_mem _ hc, hp⟩

theorem mem_classNewParts_of_noExpand {cfg : ShrinkCfg} {code : List Char}
    {cnt : Nat} {node bodyNode : Node} {p : String}
    (hse : shouldExpandClass cfg (getOdooModelNamesFromBody bodyNode code) = false)
    (hp : p ∈ classBodyParts cfg code cfg.shrinkLevel
        (getOdooModelNamesFromBody bodyNode code) bodyNode.children ∨
      p ∈ classSummaryParts cfg.shrinkLevel
        (classBuckets code cfg.shrinkLevel bodyNode.children))
    (idxAfter : Nat) :
    p ∈ classNewParts cfg code cnt idxAfter node bodyNode := by
  simp only [classNewParts, hse]
  rcases hp with hp | hp <;> simp [List.mem_append, hp]

theorem mem_topNodeNewParts_class {cfg : ShrinkCfg} {code : List Char}
    {cnt : Nat} {node bodyNode : Node} {p : String}
    (hty : node.ty = "class_definition")
    (hbody : node.childByFieldName "body" = some bodyNode)
    (hp : ∀ idxAfter, p ∈ classNewParts cfg code cnt idxAfter node bodyNode)
    (idxBefore : Nat) :
    p ∈ topNodeNewParts cfg code cnt idxBefore node := by
  simp only [topNodeNewParts, hty, hbody]
  simp
  exact hp _

/-- C3 counterexample: spec scenario 4 (one relational field with comodel
`res.partner`, level `extreme`, `relevant_models = {'res.partner'}`): the
field line is emitted, but — contrary to the claim that its name "does
not appear in the trailing per-class summary comment lines" — the summary
comment listing `partner_id` is also part of the output. -/
theorem c3_counterexample :
    (shrinkPythonFile exGCfg exGCode exGRoot).1 =
        "class B:\n    _name = 'b.b'\n" ++
          "    partner_id = fields.Many2one('res.partner')\n" ++
          "    # Shrunk non computed fields: partner_id\n" ∧
      ("# Shrunk non computed fields: partner_id").data <:+:
        ((shrinkPythonFile exGCfg exGCode exGRoot).1).data := by
  constructor
  · decide
  · decide

/-- C3 amended: at level `extreme`, for a non-expanded class, a Field
whose recorded target entity is in `relevant_models` has its full field
line (help/string-stripped) emitted — but, in addition, its name still
appears in the plain-fields summary bucket, and the trailing summary
comment line listing that bucket is also emitted. -/
theorem c3_relevant_field_emitted_and_summarized (cfg : ShrinkCfg)
    (code : List Char) (root node bodyNode child expr : Node) (cm : String)
    (hlvl : cfg.shrinkLevel = "extreme")
    (hmem : node ∈ root.children)
    (hty : node.ty = "class_definition")
    (hbody : node.childByFieldName "body" = some bodyNode)
    (hse : shouldExpandClass cfg (getOdooModelNamesFromBody bodyNode code) = false)
    (hchild : child ∈ bodyNode.children)
    (hcty : child.ty = "expression_statement")
    (hc0 : child.child 0 = some expr)
    (hety : expr.ty = "assignment")
    (hif : (getFieldInfo child code).isField = true)
    (hcm : (getFieldInfo child code).comodel = some cm)
    (hrel : cm ∈ cfg.relevantModels)
    (hcp : (getFieldInfo child code).compute = none) :
    ("    " ++ stripFieldMetadata
        (pyStrip (sliceText code child.startByte child.endByte))).data <:+:
        ((shrinkPythonFile cfg code root).1).data ∧
      ((getFieldInfo child code).name.getD "") ∈
        (classBuckets code "extreme" bodyNode.children).1 ∧
      ("    # Shrunk non computed fields: " ++
          pyJoin ", " (classBuckets code "extreme" bodyNode.children).1).data <:+:
        ((shrinkPythonFile cfg code root).1).data := by
  have hcc : classChildParts cfg code cfg.shrinkLevel
      (getOdooModelNamesFromBody bodyNode code) child =
      ["    " ++ stripFieldMetadata
        (pyStrip (sliceText code child.startByte child.endByte))] := by
    simp only [classChildParts, hcty, hc0, hety, hlvl]
    simp [hif, hcm, hrel]
  have hbl : bucketLabels code cfg.shrinkLevel child =
      ([(getFieldInfo child code).name.getD ""], []) := by
    simp only [bucketLabels, hcty, hc0, hety, hlvl]
    simp [hif, hcp]
  have hnm : ((getFieldInfo child code).name.getD "") ∈
      (classBuckets code cfg.shrinkLevel bodyNode.children).1 :=
    mem_classBuckets1 (by rw [hbl]; exact List.mem_singleton.mpr rfl) hchild
  have hne : (classBuckets code cfg.shrinkLevel bodyNode.children).1 ≠ [] :=
    List.ne_nil_of_mem hnm
  have hsummem : ("    # Shrunk non computed fields: " ++
      pyJoin ", " (classBuckets code cfg.shrinkLevel bodyNode.children).1) ∈
      classSummaryParts cfg.shrinkLevel
        (classBuckets code cfg.shrinkLevel bodyNode.children) := by
    simp only [classSummaryParts, hlvl]
    rw [hlvl] at hne
    simp [hne]
  have houtfield : ("    " ++ stripFieldMetadata
      (pyStrip (sliceText code child.startByte child.endByte))).data <:+:
      ((shrinkPythonFile cfg code root).1).data := by
    rw [shrinkPythonFile_eq]
    exact infix_assembleOut_of_mem
      (shrinkPartsFrom_mem
        (fun idx => mem_topNodeNewParts_class hty hbody
          (fun idxAfter => mem_classNewParts_of_noExpand hse
            (Or.inl (mem_classBodyParts (by rw [hcc]; exact List.mem_singleton.mpr rfl)
              hchild)) idxAfter) idx) 0 hmem)
      (indented_ne_empty _)
  have houtsum : ("    # Shrunk non computed fields: " ++
      pyJoin ", " (classBuckets code cfg.shrinkLevel bodyNode.children).1).data <:+:
      ((shrinkPythonFile cfg code root).1).data := by
    rw [shrinkPythonFile_eq]
    refine infix_assembleOut_of_mem
      (shrinkPartsFrom_mem
        (fun idx => mem_topNodeNewParts_class hty hbody
          (fun idxAfter => mem_classNewParts_of_noExpand hse
            (Or.inr hsummem) idxAfter) idx) 0 hmem)
      ?_
    intro h
    have hd := congrArg String.data h
    simp [String.data_append] at hd
  rw [hlvl] at hnm houtsum
  exact ⟨houtfield, hnm, houtsum⟩

/-- Witness for C3 amended: spec scenario 4 over source G. -/
theorem c3_relevant_field_emitted_and_summarized_witness :
    ("    " ++ stripFieldMetadata
        (pyStrip (sliceText exGCode (exGEs2).startByte (exGEs2).endByte))).data <:+:
        ((shrinkPythonFile exGCfg exGCode exGRoot).1).data ∧
      ((getFieldInfo exGEs2 exGCode).name.getD "") ∈
        (classBuckets exGCode "extreme" exGClassBody.children).1 ∧
      ("    # Shrunk non computed fields: " ++
          pyJoin ", " (classBuckets exGCode "extreme" exGClassBody.children).1).data <:+:
        ((shrinkPythonFile exGCfg exGCode exGRoot).1).data :=
  c3_relevant_field_emitted_and_summarized exGCfg exGCode exGRoot exGClass
    exGClassBody exGEs2 exGAssign2 "res.partner"
    rfl
    (by simp [exGRoot, Node.children])
    rfl
    rfl
    (by decide)
    (by simp [exGClassBody, Node.children])
    rfl
    rfl
    rfl
    (by decide)
    (by decide)
    (by decide)
    (by decide)

/-- C5 counterexample: at level `none` with no force-prunes and both
flags off, the class-body docstring of source K (an expression-statement
that is not an assignment, classified Other) is dropped from the output —
the shrink is not information-preserving. -/
theorem c5_counterexample :
    (shrinkPythonFile ⟨"none", ∅, false, false, ∅, ∅, none⟩ exKCode exKRoot).1 =
        "class A:\n    _name = 'x.y'\n    a = 1\n" ∧
      ¬ ("Doc text.".data <:+:
        ((shrinkPythonFile ⟨"none", ∅, false, false, ∅, ∅, none⟩
          exKCode exKRoot).1).data) := by
  constructor
  · decide
  · decide

/-- C5 amended: at level `none` with empty force-prune and expand sets
and both flags off, every class-body assignment statement is emitted
(stripped, 4-space indented) and every method is emitted as its full
original source; class-body statements that are not assignments
(docstrings, comments) are dropped. -/
theorem c5_none_preserves_assignments_and_methods (cfg : ShrinkCfg)
    (code : List Char) (root node bodyNode : Node)
    (hlvl : cfg.shrinkLevel = "none")
    (hprune : cfg.pruneMethods = ∅)
    (hexp : cfg.expandModels = ∅)
    (hmem : node ∈ root.children)
    (hty : node.ty = "class_definition")
    (hbody : node.childByFieldName "body" = some bodyNode) :
    (∀ child expr, child ∈ bodyNode.children →
        child.ty = "expression_statement" →
        child.child 0 = some expr → expr.ty = "assignment" →
        ("    " ++ pyStrip (sliceText code child.startByte child.endByte)).data <:+:
          ((shrinkPythonFile cfg code root).1).data) ∧
      (∀ child fdn fbody, child ∈ bodyNode.children →
        (child.ty = "function_definition" ∨ child.ty = "decorated_definition") →
        resolveFuncDef child = some fdn →
        fdn.childByFieldName "body" = some fbody →
        sliceText code child.startByte child.endByte ≠ "" →
        (sliceText code child.startByte child.endByte).data <:+:
          ((shrinkPythonFile cfg code root).1).data) := by
  have hse : shouldExpandClass cfg (getOdooModelNamesFromBody bodyNode code) = false := by
    simp [shouldExpandClass, hexp]
  constructor
  · intro child expr hchild hcty hc0 hety
    have hcc : classChildParts cfg code cfg.shrinkLevel
        (getOdooModelNamesFromBody bodyNode code) child =
        ["    " ++ pyStrip (sliceText code child.startByte child.endByte)] := by
      simp only [classChildParts, hcty, hc0, hety, hlvl]
      simp
    rw [shrinkPythonFile_eq]
    exact infix_assembleOut_of_mem
      (shrinkPartsFrom_mem
        (fun idx => mem_topNodeNewParts_class hty hbody
          (fun idxAfter => mem_classNewParts_of_noExpand hse
            (Or.inl (mem_classBodyParts
              (by rw [hcc]; exact List.mem_singleton.mpr rfl) hchild)) idxAfter) idx)
        0 hmem)
      (indented_ne_empty _)
  · intro child fdn fbody hchild hfty hres hfbody hne
    have hpf : processFunctionCore cfg.pruneMethods code child "    "
        (getOdooModelNamesFromBody bodyNode code) "none" =
        [sliceText code child.startByte child.endByte] := by
      unfold processFunctionCore shouldPruneFn
      rw [hres]
      cases hn : fdn.childByFieldName "name" with
      | none => simp [hn, hfbody]
      | some fnNode => simp [hn, hfbody, hprune]
    have hcc : classChildParts cfg code cfg.shrinkLevel
        (getOdooModelNamesFromBody bodyNode code) child =
        [sliceText code child.startByte child.endByte] := by
      have hnoexpr : ¬ child.ty = "expression_statement" := by
        rcases hfty with h | h <;> (rw [h]; simp)
      simp only [classChildParts, if_neg hnoexpr, hlvl]
      rcases hfty with h | h <;>
        simp [h, processFunction, hpf]
    rw [shrinkPythonFile_eq]
    exact infix_assembleOut_of_mem
      (shrinkPartsFrom_mem
        (fun idx => mem_topNodeNewParts_class hty hbody
          (fun idxAfter => mem_classNewParts_of_noExpand hse
            (Or.inl (mem_classBodyParts
              (by rw [hcc]; exact List.mem_singleton.mpr rfl) hchild)) idxAfter) idx)
        0 hmem)
      hne

/-- Witness for C5 amended: in source K the assignment `a = 1` is
preserved in the level-`none` output. -/
theorem c5_none_preserves_witness :
    ("    " ++ pyStrip (sliceText exKCode (exKEs3).startByte (exKEs3).endByte)).data <:+:
      ((shrinkPythonFile ⟨"none", ∅, false, false, ∅, ∅, none⟩
        exKCode exKRoot).1).data :=
  (c5_none_preserves_assignments_and_methods
      ⟨"none", ∅, false, false, ∅, ∅, none⟩ exKCode exKRoot exKClass exKClassBody
      rfl rfl rfl (by simp [exKRoot, Node.children]) rfl rfl).1
    exKEs3 exKAssign3 (by simp [exKClassBody, Node.children]) rfl rfl rfl

theorem pyJoin_cons_length_ge (a : String) (l : List String) :
    (pyJoin "\n" l).length ≤ (pyJoin "\n" (a :: l)).length := by
  cases l with
  | nil => simp [pyJoin]
  | cons b bs =>
    show (pyJoin "\n" (b :: bs)).length ≤ (a ++ "\n" ++ pyJoin "\n" (b :: bs)).length
    simp only [String.length_append]
    omega

theorem pyJoin_length_le_of_sublist :
    ∀ {l₁ l₂ : List String}, l₁ <+ l₂ →
      (pyJoin "\n" l₁).length ≤ (pyJoin "\n" l₂).length := by
  intro l₁ l₂ h
  induction h with
  | slnil => exact le_refl _
  | cons a h ih => exact ih.trans (pyJoin_cons_length_ge a _)
  | cons₂ a h ih =>
    rename_i s t
    cases s with
    | nil =>
      cases t with
      | nil => exact le_refl _
      | cons b bs =>
        show (pyJoin "\n" [a]).length ≤ (a ++ "\n" ++ pyJoin "\n" (b :: bs)).length
        simp only [pyJoin, String.length_append]
        omega
    | cons x xs =>
      cases t with
      | nil => exact absurd (List.sublist_nil.mp h) (by simp)
      | cons y ys =>
        show (a ++ "\n" ++ pyJoin "\n" (x :: xs)).length ≤
          (a ++ "\n" ++ pyJoin "\n" (y :: ys)).length
        simp only [String.length_append]
        have := ih
        omega

theorem popTrailingEmpty_cons (a : String) (l : List String) :
    popTrailingEmpty (a :: l) =
      match popTrailingEmpty l with
      | [] => if a = "" then [] else [a]
      | r => a :: r := rfl

theorem popTrailingEmpty_sublist :
    ∀ {l₁ l₂ : List String}, l₁ <+ l₂ →
      popTrailingEmpty l₁ <+ popTrailingEmpty l₂ := by
  intro l₁ l₂ h
  induction h with
  | slnil => exact List.Sublist.refl _
  | cons a h ih =>
    rename_i s t
    rw [popTrailingEmpty_cons]
    match ht : popTrailingEmpty t with
    | [] =>
      rw [ht] at ih
      rw [List.sublist_nil.mp ih]
      dsimp only
      split <;> simp
    | r :: rs =>
      rw [ht] at ih
      exact ih.trans (List.sublist_cons_self a (r :: rs))
  | cons₂ a h ih =>
    rename_i s t
    rw [popTrailingEmpty_cons, popTrailingEmpty_cons]
    match hs : popTrailingEmpty s, ht : popTrailingEmpty t with
    | [], [] =>
      dsimp only
      split <;> simp
    | [], r :: rs =>
      dsimp only
      split
      · exact List.nil_sublist _
      · exact List.cons_sublist_cons.mpr (List.nil_sublist _)
    | x :: xs, [] =>
      simp only [hs, ht] at ih
      exact absurd (List.sublist_nil.mp ih) (List.cons_ne_nil x xs)
    | x :: xs, r :: rs =>
      simp only [hs, ht] at ih
      dsimp only
      exact List.cons_sublist_cons.mpr ih

theorem assembleOut_length_mono {l₁ l₂ : List String} (h : l₁ <+ l₂) :
    (assembleOut l₁).length ≤ (assembleOut l₂).length := by
  unfold assembleOut
  simp only [String.length_append]
  have := pyJoin_length_le_of_sublist (popTrailingEmpty_sublist h)
  omega

theorem flatten_sublist_of_forall {α : Type} {f g : α → List String} :
    ∀ (l : List α), (∀ c ∈ l, f c <+ g c) →
      (l.map f).flatten <+ (l.map g).flatten
  | [], _ => List.Sublist.refl _
  | c :: rest, h => by
    simp only [List.map_cons, List.flatten_cons]
    exact List.Sublist.append (h c (List.mem_cons_self c rest))
      (flatten_sublist_of_forall rest (fun d hd => h d (List.mem_cons_of_mem c hd)))

theorem processFunctionCore_hard_sub_soft (p : Finset String) (code : List Char)
    (node : Node) (indentStr : String) (ctx : Finset String) :
    processFunctionCore p code node indentStr ctx "hard" <+
      processFunctionCore p code node indentStr ctx "soft" := by
  unfold processFunctionCore
  cases hres : resolveFuncDef node with
  | none => exact List.Sublist.refl _
  | some fdn =>
    dsimp only
    by_cases hsp : shouldPruneFn p code fdn ctx = true
    · simp only [hsp]
      cases hb : fdn.childByFieldName "body" with
      | none => simp
      | some bodyN => simp
    · rw [Bool.not_eq_true] at hsp
      simp only [hsp]
      simp

theorem bucketLabels_eq_nil (code : List Char) (eff : String) (child : Node)
    (heff : eff ≠ "extreme") : bucketLabels code eff child = ([], []) := by
  unfold bucketLabels
  repeat' first | rfl | split
  all_goals simp_all

theorem classSummaryParts_eq_nil (eff : String) (b : List String × List String)
    (heff : eff ≠ "extreme") : classSummaryParts eff b = [] := by
  simp [classSummaryParts, heff]

theorem classChildParts_hard_sub_soft (e : Finset String) (si sm : Bool)
    (r p : Finset String) (hd : Option String) (code : List Char)
    (mn : Finset String) (child : Node) :
    classChildParts ⟨"hard", e, si, sm, r, p, hd⟩ code "hard" mn child <+
      classChildParts ⟨"soft", e, si, sm, r, p, hd⟩ code "soft" mn child := by
  unfold classChildParts
  by_cases h1 : child.ty = "expression_statement"
  · simp only [h1]
    cases hc : child.child 0 with
    | none => simp
    | some expr =>
      by_cases hety : expr.ty = "assignment"
      · simp [hety]
      · simp [hety]
  · simp only [h1]
    by_cases h2 : child.ty = "function_definition" ∨ child.ty = "decorated_definition"
    · have hH : classChildParts ⟨"hard", e, si, sm, r, p, hd⟩ code "hard" mn child =
          processFunctionCore p code child "    " mn "hard" := by
        unfold classChildParts
        rcases h2 with h2 | h2 <;> simp [h1, h2, processFunction]
      have hS : classChildParts ⟨"soft", e, si, sm, r, p, hd⟩ code "soft" mn child =
          processFunctionCore p code child "    " mn "soft" := by
        unfold classChildParts
        rcases h2 with h2 | h2 <;> simp [h1, h2, processFunction]
      rw [classChildParts] at hH hS
      simp only [h1] at hH hS
      rw [hH, hS]
      exact processFunctionCore_hard_sub_soft p code child "    " mn
    · push_neg at h2
      simp [h2.1, h2.2]

theorem classNewParts_hard_sub_soft (e : Finset String) (si sm : Bool)
    (r p : Finset String) (hd : Option String) (code : List Char)
    (cnt idxAfter : Nat) (node bodyNode : Node) :
    classNewParts ⟨"hard", e, si, sm, r, p, hd⟩ code cnt idxAfter node bodyNode <+
      classNewParts ⟨"soft", e, si, sm, r, p, hd⟩ code cnt idxAfter node bodyNode := by
  have hseq : shouldExpandClass (⟨"soft", e, si, sm, r, p, hd⟩ : ShrinkCfg) =
      shouldExpandClass (⟨"hard", e, si, sm, r, p, hd⟩ : ShrinkCfg) := rfl
  have hpeq : hasPrunedMethods (⟨"soft", e, si, sm, r, p, hd⟩ : ShrinkCfg) =
      hasPrunedMethods (⟨"hard", e, si, sm, r, p, hd⟩ : ShrinkCfg) := rfl
  unfold classNewParts
  rw [hseq, hpeq]
  by_cases hse : shouldExpandClass (⟨"hard", e, si, sm, r, p, hd⟩ : ShrinkCfg)
      (getOdooModelNamesFromBody bodyNode code) = true
  · by_cases hpr : hasPrunedMethods (⟨"hard", e, si, sm, r, p, hd⟩ : ShrinkCfg)
        (getOdooModelNamesFromBody bodyNode code) = true
    · simp only [hse, hpr]
      exact List.Sublist.refl _
    · rw [Bool.not_eq_true] at hpr
      simp only [hse, hpr]
      exact List.Sublist.refl _
  · rw [Bool.not_eq_true] at hse
    simp only [hse]
    simp only [Bool.false_and, Bool.false_eq_true, if_false, if_neg]
    refine List.Sublist.append (List.Sublist.append (List.Sublist.append
      (List.Sublist.refl _) ?_) ?_) (List.Sublist.refl _)
    · exact flatten_sublist_of_forall _
        (fun c _ => classChildParts_hard_sub_soft e si sm r p hd code _ c)
    · rw [classSummaryParts_eq_nil _ _ (by decide),
        classSummaryParts_eq_nil _ _ (by decide)]

theorem topNodeNewParts_hard_sub_soft (e : Finset String) (si sm : Bool)
    (r p : Finset String) (hd : Option String) (code : List Char)
    (cnt idxBefore : Nat) (node : Node) :
    topNodeNewParts ⟨"hard", e, si, sm, r, p, hd⟩ code cnt idxBefore node <+
      topNodeNewParts ⟨"soft", e, si, sm, r, p, hd⟩ code cnt idxBefore node := by
  by_cases h1 : node.ty = "import_statement" ∨ node.ty = "import_from_statement"
  · have hH : topNodeNewParts ⟨"hard", e, si, sm, r, p, hd⟩ code cnt idxBefore node =
        (if !si then [pyStrip (sliceText code node.startByte node.endByte)] else []) := by
      unfold topNodeNewParts
      rcases h1 with h | h <;> simp [h]
    have hS : topNodeNewParts ⟨"soft", e, si, sm, r, p, hd⟩ code cnt idxBefore node =
        (if !si then [pyStrip (sliceText code node.startByte node.endByte)] else []) := by
      unfold topNodeNewParts
      rcases h1 with h | h <;> simp [h]
    rw [hH, hS]
  · push_neg at h1
    by_cases h2 : node.ty = "class_definition"
    · cases hb : node.childByFieldName "body" with
      | none =>
        have hH : topNodeNewParts ⟨"hard", e, si, sm, r, p, hd⟩ code cnt idxBefore node =
            [] := by
          unfold topNodeNewParts
          simp [h2, hb]
        have hS : topNodeNewParts ⟨"soft", e, si, sm, r, p, hd⟩ code cnt idxBefore node =
            [] := by
          unfold topNodeNewParts
          simp [h2, hb]
        rw [hH, hS]
      | some bodyNode =>
        have hH : topNodeNewParts ⟨"hard", e, si, sm, r, p, hd⟩ code cnt idxBefore node =
            classNewParts ⟨"hard", e, si, sm, r, p, hd⟩ code cnt
              (if getOdooModelNamesFromBody bodyNode code ≠ ∅ then idxBefore + 1
               else idxBefore) node bodyNode := by
          unfold topNodeNewParts
          simp [h2, hb]
        have hS : topNodeNewParts ⟨"soft", e, si, sm, r, p, hd⟩ code cnt idxBefore node =
            classNewParts ⟨"soft", e, si, sm, r, p, hd⟩ code cnt
              (if getOdooModelNamesFromBody bodyNode code ≠ ∅ then idxBefore + 1
               else idxBefore) node bodyNode := by
          unfold topNodeNewParts
          simp [h2, hb]
        rw [hH, hS]
        exact classNewParts_hard_sub_soft e si sm r p hd code cnt _ node bodyNode
    · by_cases h3 : node.ty = "function_definition" ∨ node.ty = "decorated_definition"
      · have hH : topNodeNewParts ⟨"hard", e, si, sm, r, p, hd⟩ code cnt idxBefore node =
            processFunctionCore p code node "" ∅ "hard" := by
          unfold topNodeNewParts
          rcases h3 with h | h <;> simp [h, processFunction]
        have hS : topNodeNewParts ⟨"soft", e, si, sm, r, p, hd⟩ code cnt idxBefore node =
            processFunctionCore p code node "" ∅ "soft" ++ [""] := by
          unfold topNodeNewParts
          rcases h3 with h | h <;> simp [h, processFunction]
        rw [hH, hS]
        have := processFunctionCore_hard_sub_soft p code node "" ∅
        calc processFunctionCore p code node "" ∅ "hard"
            <+ processFunctionCore p code node "" ∅ "soft" := this
          _ <+ processFunctionCore p code node "" ∅ "soft" ++ [""] :=
            List.sublist_append_left _ _
      · push_neg at h3
        have hH : topNodeNewParts ⟨"hard", e, si, sm, r, p, hd⟩ code cnt idxBefore node =
            (if node.ty = "expression_statement" then
              match node.child 0 with
              | some expr =>
                if expr.ty = "assignment" then
                  [cleanLine sm (pyStrip (sliceText code node.startByte node.endByte))]
                else []
              | none => []
            else []) := by
          unfold topNodeNewParts
          simp [h1.1, h1.2, h2, h3.1, h3.2]
        have hS : topNodeNewParts ⟨"soft", e, si, sm, r, p, hd⟩ code cnt idxBefore node =
            (if node.ty = "expression_statement" then
              match node.child 0 with
              | some expr =>
                if expr.ty = "assignment" then
                  [cleanLine sm (pyStrip (sliceText code node.startByte node.endByte))]
                else []
              | none => []
            else []) := by
          unfold topNodeNewParts
          simp [h1.1, h1.2, h2, h3.1, h3.2]
        rw [hH, hS]

theorem shrinkPartsFrom_hard_sub_soft (e : Finset String) (si sm : Bool)
    (r p : Finset String) (hd : Option String) (code : List Char) (cnt : Nat) :
    ∀ (l : List Node) (idx : Nat),
      shrinkPartsFrom ⟨"hard", e, si, sm, r, p, hd⟩ code cnt idx l <+
        shrinkPartsFrom ⟨"soft", e, si, sm, r, p, hd⟩ code cnt idx l
  | [], _ => List.Sublist.refl _
  | n :: rest, idx => by
    simp only [shrinkPartsFrom]
    exact List.Sublist.append
      (topNodeNewParts_hard_sub_soft e si sm r p hd code cnt idx n)
      (shrinkPartsFrom_hard_sub_soft e si sm r p hd code cnt rest _)

/-- C6 counterexample: over source F (one entity class with a short-bodied
method and one field, empty expand/prune sets) the output lengths are 75
(`none`), 89 (`soft`), 49 (`hard`) and 63 (`extreme`), so the claimed
chain extreme ≤ hard ≤ soft ≤ none fails: 63 > 49 and 89 > 75. -/
theorem c6_counterexample :
    ¬ (((shrinkPythonFile (exFCfg "extreme") exFCode exFRoot).1.length ≤
          (shrinkPythonFile (exFCfg "hard") exFCode exFRoot).1.length) ∧
        ((shrinkPythonFile (exFCfg "hard") exFCode exFRoot).1.length ≤
          (shrinkPythonFile (exFCfg "soft") exFCode exFRoot).1.length) ∧
        ((shrinkPythonFile (exFCfg "soft") exFCode exFRoot).1.length ≤
          (shrinkPythonFile (exFCfg "none") exFCode exFRoot).1.length)) := by
  decide

/-- C6 amended: of the claimed chain only hard ≤ soft holds in general:
for the same file and expand/prune/relevant sets and flags, the output at
level `hard` is never longer than the output at level `soft` (the parts
emitted at `hard` form a sublist of those emitted at `soft`).  The
inequalities extreme ≤ hard and soft ≤ none fail in general (see the
counterexample). -/
theorem c6_hard_le_soft (e : Finset String) (si sm : Bool)
    (r p : Finset String) (hd : Option String) (code : List Char) (root : Node) :
    ((shrinkPythonFile ⟨"hard", e, si, sm, r, p, hd⟩ code root).1).length ≤
      ((shrinkPythonFile ⟨"soft", e, si, sm, r, p, hd⟩ code root).1).length := by
  rw [shrinkPythonFile_eq, shrinkPythonFile_eq]
  exact assembleOut_length_mono
    (shrinkPartsFrom_hard_sub_soft e si sm r p hd code
      (odooModelsCountOf code root) root.children 0)

end Akaidoo
